import Mathlib

/-!
Verification of the green-agent evaluation harness against its specification.

The development shallowly embeds the Python sources:
  src/src/container_executor.py  (sandbox manager: bash / patch / debug primitives)
  src/src/agent.py               (orchestrator conversation loop, pass@k)
  src/src/docker_validator.py    (test scoring)

Python strings are modelled as lists of characters (`Str`).  Interaction with
the Docker container (`docker exec` subprocesses) is modelled by an oracle
`ExecOracle` giving, for each command and working directory, the raw stdout,
stderr and exit status of that execution; the embedded functions perform
exactly the string manipulation, policy checks, truncation and state updates
the Python code performs around those subprocess calls.  Each embedded
function also reports the list of commands it actually handed to the
container, so that "the shell is never invoked" claims are statable.
-/

namespace GreenAgent

/-- Python strings are sequences of characters. -/
abbrev Str := List Char

/-- Characters removed by Python's `str.strip()` with no arguments
(ASCII whitespace; the harness only handles ASCII commands). -/
def isPySpace (c : Char) : Bool :=
  c = ' ' || c = '\t' || c = '\n' || c = '\r' || c = '\x0b' || c = '\x0c'

/-- Python `s.strip()`: drop leading and trailing whitespace. -/
def pyStrip (s : Str) : Str :=
  ((s.dropWhile isPySpace).reverse.dropWhile isPySpace).reverse

/-- Python `s.strip(chars)`: drop leading and trailing characters from `cs`. -/
def pyStripChars (cs : List Char) (s : Str) : Str :=
  ((s.dropWhile (cs.contains ·)).reverse.dropWhile (cs.contains ·)).reverse

/-- Executable substring test: Python's `needle in haystack`. -/
def substrOf (needle hay : Str) : Bool :=
  hay.tails.any (fun t => needle.isPrefixOf t)

/-- Python `s.split(sep)` for a single-character separator (used for the
line structure of `re.MULTILINE` matching and for `posixpath` components). -/
def splitOnChar (sep : Char) : Str → List Str
  | [] => [[]]
  | c :: rest =>
    match splitOnChar sep rest with
    | [] => [[]]
    | r :: rs => if c = sep then [] :: r :: rs else (c :: r) :: rs

/-- Python `s.split(maxsplit=1)` (split on whitespace runs, at most once):
returns the first token and, when present, the remainder after the
whitespace run that follows it (trailing whitespace kept, as in Python). -/
def pySplitMax1 (s : Str) : Str × Option Str :=
  let s1 := s.dropWhile isPySpace
  let tok := s1.takeWhile (fun c => !isPySpace c)
  let rest := (s1.dropWhile (fun c => !isPySpace c)).dropWhile isPySpace
  (tok, if rest = [] then none else some rest)

/-- The number of initial slashes `posixpath.normpath` preserves (POSIX
allows exactly two initial slashes to be meaningful). -/
def initialSlashes (p : Str) : Nat :=
  if ("/".data).isPrefixOf p then
    if ("//".data).isPrefixOf p && !(("///".data).isPrefixOf p) then 2 else 1
  else 0

/-- One step of `posixpath.normpath`'s component loop: skip empty and `.`
components, pop on `..` (except at an absolute root or after a kept `..`),
append otherwise. -/
def normStep (initSlashes : Nat) (acc : List Str) (comp : Str) : List Str :=
  if comp = [] || comp = ".".data then acc
  else if comp ≠ "..".data || (initSlashes = 0 && acc = []) ||
          (acc ≠ [] && acc.getLast? = some ("..".data)) then acc ++ [comp]
  else if acc ≠ [] then acc.dropLast
  else acc

/-- `posixpath.normpath`: collapse `//`, resolve `.` and `..` components. -/
def normPath (p : Str) : Str :=
  if List.replicate (initialSlashes p) '/' ++
      List.intercalate ("/".data)
        ((splitOnChar '/' p).foldl (normStep (initialSlashes p)) []) = [] then
    ".".data
  else
    List.replicate (initialSlashes p) '/' ++
      List.intercalate ("/".data)
        ((splitOnChar '/' p).foldl (normStep (initialSlashes p)) [])

/-- `posixpath.join cwd target` for the relative-target branch of
`_resolve_path` (the code only joins when `target` is not absolute). -/
def joinPath (cwd target : Str) : Str :=
  if cwd = [] then target
  else if cwd.getLast? = some '/' then cwd ++ target
  else cwd ++ '/' :: target

/-! ## container_executor.py: constants and data model -/

/-- `REPO_ROOT = "/workspace/repo"`. -/
def REPO_ROOT : Str := "/workspace/repo".data

/-- `BLOCKED_PATHS` tuple from container_executor.py. -/
def BLOCKED_PATHS : List Str :=
  ["/tmp".data, "/var/tmp".data, "/etc".data, "/root".data, "/home".data,
   "/proc".data, "/sys".data, "/dev".data, "/run".data, "/var/log".data]

/-- Raw output of one `docker exec` subprocess (before any truncation the
Python wrapper applies). -/
structure ExecOut where
  stdout : Str := []
  stderr : Str := []
  success : Bool := true
deriving DecidableEq

/-- Environment model: what the container replies for a command executed in a
given working directory. -/
abbrev ExecOracle := Str → Str → ExecOut

/-- `BashResult` dataclass. -/
structure BashResultM where
  cwd : Str
  stdout : Str
  stderr : Str
  success : Bool
  error : Option Str := none
deriving DecidableEq

/-- `PatchResult` dataclass. -/
structure PatchResultM where
  success : Bool
  cwd : Str
  stdout : Str
  stderr : Str
  error : Option Str := none
deriving DecidableEq

/-- The mutable state of a `ContainerExecutor` relevant to the claims:
lifecycle flag, tracked working directory, the task's `base_commit` and the
protected test files extracted from `test_patch`.  `repo_root` is always the
constant `REPO_ROOT` in the source, so it is not a field. -/
structure CState where
  started : Bool
  cwd : Str
  baseCommit : Str
  protectedTestFiles : List Str
deriving DecidableEq

/-- `_exec_in_container` (lines 348-410): runs the command in the container
at `workDir` and truncates `stdout[:10000]`, `stderr[:2000]`. -/
def execInContainer (o : ExecOracle) (workDir cmd : Str) : BashResultM :=
  let r := o cmd workDir
  { cwd := workDir
    stdout := r.stdout.take 10000
    stderr := r.stderr.take 2000
    success := r.success }

/-- `_extract_files_from_patch`: paths from `+++ ` diff headers, matching
`^\+\+\+ (?:b/)?(.+)$` per line, stripped, dropping empty and `/dev/null`.
The optional `b/` is consumed only when at least one character follows it
(regex backtracking). -/
def extractFilesFromPatch (patch : Str) : List Str :=
  (splitOnChar '\n' patch).filterMap (fun line =>
    if ("+++ ".data).isPrefixOf line then
      let rest := line.drop 4
      if rest = [] then none
      else
        let captured :=
          if ("b/".data).isPrefixOf rest && rest.drop 2 ≠ [] then rest.drop 2 else rest
        let f := pyStrip captured
        if f ≠ [] && f ≠ "/dev/null".data then some f else none
    else none)

/-- `_resolve_path`: absolute targets are normalised, relative targets are
joined to the current cwd and normalised. -/
def resolvePath (cwd target : Str) : Str :=
  if ("/".data).isPrefixOf target then normPath target
  else normPath (joinPath cwd target)

/-- `_is_within_repo`: `os.path.normpath(path).startswith(self.repo_root)` —
a plain string-prefix test. -/
def isWithinRepo (p : Str) : Bool :=
  REPO_ROOT.isPrefixOf (normPath p)

/-- The specification's notion for invariant I1: a path is a descendant of
the repo root when it is the root itself or lies strictly below it
(`/workspace/repo/...`).  Used to compare the spec's wording with the
implementation's prefix test `isWithinRepo`. -/
def isRepoDescendant (p : Str) : Bool :=
  p = REPO_ROOT || (REPO_ROOT ++ "/".data).isPrefixOf p

/-- The eight textual patterns `_contains_blocked_path` looks for around a
blocked path `b` (besides the command starting with `b`). -/
def blockedPatterns (b : Str) : List Str :=
  [' ' :: b,
   ' ' :: (b ++ "/".data),
   '\'' :: b,
   '"' :: b,
   '>' :: b,
   '<' :: b,
   "cat ".data ++ b,
   "ls ".data ++ b]

/-- `_contains_blocked_path` (lines 426-448): first blocked path that occurs
in the command and matches one of the argument-like patterns (or starts the
command); `none` when no blocked path matches. -/
def containsBlockedPath (cmd : Str) : Option Str :=
  BLOCKED_PATHS.findSome? (fun b =>
    if substrOf b cmd &&
       (b.isPrefixOf cmd || (blockedPatterns b).any (fun p => substrOf p cmd)) then
      some b
    else none)

/-- `BLOCKED_REFS` from `_check_git_restriction`. -/
def BLOCKED_REFS : List Str :=
  ["HEAD".data, "main".data, "master".data,
   "origin/main".data, "origin/master".data, "origin/HEAD".data]

/-- Helper building the restricted-git `BashResult` (all such results share
`success=False`, empty stdout, error `"Restricted git command"`). -/
def gitRestrictedResult (cwd stderr : Str) : BashResultM :=
  { cwd := cwd, stdout := [], stderr := stderr, success := false
    error := some ("Restricted git command".data) }

/-- `_check_git_restriction` (lines 450-545).  `st.baseCommit` plays the part
of `self.task.base_commit`; the `if not self.task` guard is subsumed by the
started-state modelling (a started executor always has a task). -/
def checkGitRestriction (st : CState) (command : Str) : Option BashResultM :=
  let g := pyStrip command
  if ("git log".data).isPrefixOf g then
    BLOCKED_REFS.findSome? (fun ref =>
      if substrOf ref g && !(substrOf st.baseCommit g) then
        some (gitRestrictedResult st.cwd
          ("git log with '".data ++ ref ++ "' is restricted. Use 'git log ".data ++
           st.baseCommit ++ "' or earlier commits.".data))
      else none)
  else if ("git show".data).isPrefixOf g then
    match BLOCKED_REFS.findSome? (fun ref =>
      if substrOf ref g then
        some (gitRestrictedResult st.cwd
          ("git show with '".data ++ ref ++
           "' is restricted. Use specific commit hashes at or before ".data ++
           st.baseCommit.take 8 ++ ".".data))
      else none) with
    | some r => some r
    | none =>
      if pyStrip g = "git show".data then
        some (gitRestrictedResult st.cwd
          ("git show without arguments is restricted. Use 'git show <commit-hash>' for commits at or before ".data ++
           st.baseCommit.take 8 ++ ".".data))
      else none
  else if ("git diff".data).isPrefixOf g then
    BLOCKED_REFS.findSome? (fun ref =>
      if substrOf ref g then
        some (gitRestrictedResult st.cwd
          ("git diff with '".data ++ ref ++
           "' is restricted. Use 'git diff' for unstaged changes or specific older commits.".data))
      else none)
  else if ("git checkout".data).isPrefixOf g then
    BLOCKED_REFS.findSome? (fun ref =>
      if substrOf ref g then
        some (gitRestrictedResult st.cwd
          ("git checkout '".data ++ ref ++
           "' is restricted. The repo is checked out at base_commit ".data ++
           st.baseCommit.take 8 ++ ".".data))
      else none)
  else if ("git reset".data).isPrefixOf g then
    some (gitRestrictedResult st.cwd ("git reset is restricted.".data))
  else if ("git pull".data).isPrefixOf g || ("git fetch".data).isPrefixOf g then
    some (gitRestrictedResult st.cwd
      ("git pull/fetch is restricted. The repo is in a fixed state.".data))
  else none

/-- Result of an `execute_bash` call: the returned `BashResult`, the executor
state afterwards, and the commands actually handed to the container. -/
structure ExecTrace where
  result : BashResultM
  state : CState
  execs : List Str
deriving DecidableEq

/-- The `"Container not started"` result. -/
def notStartedResult (st : CState) : BashResultM :=
  { cwd := st.cwd, stdout := [], stderr := "Container not started".data
    success := false, error := some ("Container not started".data) }

/-- The `"Cannot cd outside repo root (/workspace/repo)"` result. -/
def cannotCdResult (st : CState) : BashResultM :=
  { cwd := st.cwd, stdout := []
    stderr := "Cannot cd outside repo root (".data ++ REPO_ROOT ++ ")".data
    success := false }

/-- The target a `cd` command names: the remainder after the first token,
stripped of whitespace and surrounding quotes; a bare `cd` targets the repo
root (from `_handle_cd`, lines 604-610). -/
def cdTarget (command : Str) : Str :=
  match (pySplitMax1 command).2 with
  | none => REPO_ROOT
  | some r => pyStripChars ['\'', '"'] (pyStrip r)

/-- `_handle_cd` (lines 602-658). -/
def handleCd (o : ExecOracle) (st : CState) (command : Str) : ExecTrace :=
  let target := cdTarget command
  if target = "-".data then
    ⟨{ cwd := st.cwd, stdout := [], stderr := "cd - not supported".data
       success := false }, st, []⟩
  else if target = "~".data || ("~/".data).isPrefixOf target then
    ⟨cannotCdResult st, st, []⟩
  else
    let newCwd := resolvePath st.cwd target
    if !(isWithinRepo newCwd) then
      ⟨cannotCdResult st, st, []⟩
    else
      let checkCmd := "test -d '".data ++ newCwd ++ "'".data
      let check := execInContainer o st.cwd checkCmd
      if !check.success then
        ⟨{ cwd := st.cwd, stdout := []
           stderr := "bash: cd: ".data ++ target ++ ": No such file or directory".data
           success := false }, st, [checkCmd]⟩
      else
        ⟨{ cwd := newCwd, stdout := [], stderr := [], success := true },
         { st with cwd := newCwd }, [checkCmd]⟩

/-- `_handle_compound_command` (lines 660-681): execute, then (when the
command involved `cd` and succeeded) query `pwd` in a fresh exec and accept
the update only when it stays within the repo prefix. -/
def handleCompound (o : ExecOracle) (st : CState) (command : Str) : ExecTrace :=
  let r := execInContainer o st.cwd command
  if r.success && (substrOf ("cd ".data) command || ("cd".data).isPrefixOf command) then
    let p := execInContainer o st.cwd ("pwd".data)
    if p.success then
      let newCwd := pyStrip p.stdout
      if isWithinRepo newCwd then
        ⟨{ r with cwd := newCwd }, { st with cwd := newCwd }, [command, "pwd".data]⟩
      else ⟨{ r with cwd := st.cwd }, st, [command, "pwd".data]⟩
    else ⟨{ r with cwd := st.cwd }, st, [command, "pwd".data]⟩
  else ⟨{ r with cwd := st.cwd }, st, [command]⟩

/-- `execute_bash` (lines 547-600): policy checks (blocked paths, git
restrictions), then cd handling, compound handling, or plain execution. -/
def executeBash (o : ExecOracle) (st : CState) (command0 : Str) : ExecTrace :=
  if !st.started then ⟨notStartedResult st, st, []⟩
  else
    let command := pyStrip command0
    match containsBlockedPath command with
    | some b =>
      ⟨{ cwd := st.cwd, stdout := []
         stderr := "Access denied: ".data ++ b ++ " is outside the allowed workspace".data
         success := false, error := some ("Blocked path access".data) }, st, []⟩
    | none =>
      match checkGitRestriction st command with
      | some r => ⟨r, st, []⟩
      | none =>
        if command = "cd".data || ("cd ".data).isPrefixOf command then
          handleCd o st command
        else if substrOf (" && ".data) command || substrOf (" ; ".data) command then
          handleCompound o st command
        else
          let r := execInContainer o st.cwd command
          ⟨{ r with cwd := st.cwd }, st, [command]⟩

/-- Result of an `apply_patch` call: the returned `PatchResult` plus the
commands the call handed to the container (empty for the early rejections,
which happen before the write-permission window is opened). -/
structure PatchTrace where
  result : PatchResultM
  execs : List Str
deriving DecidableEq

/-- `AGENT_TEMP_DIR`-based patch file path used by `apply_patch`. -/
def PATCH_FILE : Str := "/workspace/repo/.agent_temp/patch.diff".data

/-- Whether the `docker exec -i ... tee` write of the patch file succeeds
(a host-side subprocess, outside the exec oracle). -/
structure PatchEnv where
  writeOk : Bool := true
  writeErr : Str := []
deriving DecidableEq

/-- `apply_patch` (lines 683-803): reject unstarted container, empty patch
and protected-file modification before touching the container; otherwise
open the write window, write the patch, try `git apply`, `git apply --3way`,
then `patch -p1`, clean up and close the window. -/
def applyPatch (o : ExecOracle) (env : PatchEnv) (st : CState) (patch : Str) :
    PatchTrace :=
  if !st.started then
    ⟨{ success := false, cwd := st.cwd, stdout := []
       stderr := "Container not started".data
       error := some ("Container not started".data) }, []⟩
  else if patch = [] || pyStrip patch = [] then
    ⟨{ success := false, cwd := st.cwd, stdout := []
       stderr := "Empty patch provided".data
       error := some ("Empty patch".data) }, []⟩
  else
    let patchFiles := extractFilesFromPatch patch
    let violations := patchFiles.filter (fun f => st.protectedTestFiles.contains f)
    if violations ≠ [] then
      ⟨{ success := false, cwd := st.cwd, stdout := []
         stderr := "Cannot modify protected test files: ".data ++
                   List.intercalate (", ".data) violations
         error := some ("Protected file modification attempted".data) }, []⟩
    else
      let openCmd := "chmod -R u+w ".data ++ REPO_ROOT
      let protCmds := st.protectedTestFiles.map (fun f =>
        "chmod a-w ".data ++ REPO_ROOT ++ '/' :: f ++ " 2>/dev/null || true".data)
      let closeCmd := "chmod -R a-w ".data ++ REPO_ROOT
      if !env.writeOk then
        ⟨{ success := false, cwd := st.cwd, stdout := []
           stderr := "Failed to write patch file: ".data ++ env.writeErr
           error := some ("Failed to write patch".data) }
         , [openCmd] ++ protCmds ++ [closeCmd]⟩
      else
        let try1Cmd := "cd ".data ++ REPO_ROOT ++
          " && git apply --whitespace=fix --verbose ".data ++ PATCH_FILE
        let try2Cmd := "cd ".data ++ REPO_ROOT ++
          " && git apply --whitespace=fix --3way ".data ++ PATCH_FILE
        let try3Cmd := "cd ".data ++ REPO_ROOT ++
          " && patch -p1 --ignore-whitespace < ".data ++ PATCH_FILE
        let r1 := execInContainer o st.cwd try1Cmd
        let applied :=
          if r1.success then (r1, [try1Cmd])
          else
            let r2 := execInContainer o st.cwd try2Cmd
            if r2.success then (r2, [try1Cmd, try2Cmd])
            else (execInContainer o st.cwd try3Cmd, [try1Cmd, try2Cmd, try3Cmd])
        let rmCmd := "rm -f ".data ++ PATCH_FILE
        let restoreCmd := "chmod -R a-w ".data ++ REPO_ROOT ++
          " && chmod -R a+rX ".data ++ REPO_ROOT
        ⟨{ success := applied.1.success, cwd := st.cwd
           stdout := applied.1.stdout, stderr := applied.1.stderr
           error := if applied.1.success then none
                    else some ("Patch application failed".data) }
         , [openCmd] ++ protCmds ++ applied.2 ++ [rmCmd, restoreCmd]⟩

/-- Host-side subprocess outcomes for `execute_debug` (snapshot commit,
temporary container start, patch-file write, `git apply`, and the final
command execution).  The final execution's raw output is `execOut`. -/
structure DebugEnv where
  commitOk : Bool := true
  commitErr : Str := []
  runOk : Bool := true
  runErr : Str := []
  writeOk : Bool := true
  applyOk : Bool := true
  applyErr : Str := []
  execOut : ExecOracle := fun _ _ => {}

/-- `execute_debug` (lines 805-984): protected-file gate, snapshot, temp
container, write window, optional patch, then the command — whose stdout and
stderr are returned verbatim, with no truncation. -/
def executeDebug (env : DebugEnv) (st : CState) (patch command : Str) :
    BashResultM :=
  if !st.started then notStartedResult st
  else
    let violations :=
      if patch ≠ [] then
        (extractFilesFromPatch patch).filter (fun f => st.protectedTestFiles.contains f)
      else []
    if violations ≠ [] then
      { cwd := st.cwd, stdout := []
        stderr := "Cannot modify protected test files: ".data ++
                  List.intercalate (", ".data) violations
        success := false
        error := some ("Protected file modification attempted".data) }
    else if !env.commitOk then
      { cwd := st.cwd, stdout := []
        stderr := "Failed to create debug snapshot: ".data ++ env.commitErr
        success := false, error := some ("Debug snapshot failed".data) }
    else if !env.runOk then
      { cwd := st.cwd, stdout := []
        stderr := "Failed to start debug container: ".data ++ env.runErr
        success := false, error := some ("Debug container failed".data) }
    else
      let patchFails :=
        patch ≠ [] && pyStrip patch ≠ [] && env.writeOk && !env.applyOk
      if patchFails then
        { cwd := st.cwd, stdout := []
          stderr := "Debug patch failed: ".data ++ env.applyErr
          success := false, error := some ("Debug patch failed".data) }
      else
        let r := env.execOut command st.cwd
        { cwd := st.cwd
          stdout := r.stdout
          stderr := r.stderr
          success := r.success }

/-! ## agent.py: the debug dispatch and Python call semantics (claim C1) -/

/-- A Python function parameter: its name and whether it has a default. -/
structure PyParam where
  name : Str
  hasDefault : Bool
deriving DecidableEq

/-- The parameter list of
`async def execute_debug(self, patch: str, command: str, timeout: int = DEFAULT_BASH_TIMEOUT)`
(`self` is bound by the method receiver). -/
def executeDebugParams : List PyParam :=
  [⟨"patch".data, false⟩, ⟨"command".data, false⟩, ⟨"timeout".data, true⟩]

/-- Python call binding succeeds iff every keyword names a parameter, there
are not more positional arguments than parameters, no keyword re-binds a
positionally bound parameter, and every parameter without a default is bound
positionally or by keyword.  Otherwise the call raises `TypeError`. -/
def pyCallOk (params : List PyParam) (nPos : Nat) (kwargs : List Str) : Bool :=
  kwargs.all (fun k => params.any (fun p => p.name = k)) &&
  nPos ≤ params.length &&
  (params.take nPos).all (fun p => !kwargs.contains p.name) &&
  params.enum.all (fun ip => ip.2.hasDefault || ip.1 < nPos || kwargs.contains ip.2.name)

/-- The keyword arguments the orchestrator's debug branch passes:
`self.container.execute_debug(command=debug_command, timeout=bash_timeout)`
(agent.py lines 485-488) — no positional arguments, and no `patch`. -/
def debugDispatchKwargs : List Str := ["command".data, "timeout".data]

/-- The structured object the debug branch would send back to the solver. -/
structure DebugOutput where
  debugResult : Bool
  cwd : Str
  stdout : Str
  stderr : Str
  success : Bool
  note : Str
deriving DecidableEq

/-- The `note` field of the debug reply (agent.py line 500). -/
def debugNote : Str :=
  "This was a debug session. Changes were NOT applied to the main environment.".data

/-- agent.py lines 475-523 (the `action == "debug"` branch): choose the debug
command, call `execute_debug`, and build the `{debug_result: true, ...}`
reply.  The call is modelled by Python's binding rules: when binding fails
the branch raises `TypeError` (modelled as `.error`), the sandbox call never
runs, and no reply is produced.  Were the call well-formed, `patch` would be
`None` (modelled as the empty string, which `execute_debug` treats the same
way). -/
def debugDispatch (env : DebugEnv) (st : CState) (content : Str) :
    Except Str DebugOutput :=
  let debugCommand :=
    if content ≠ [] then content else "echo 'No command specified'".data
  if pyCallOk executeDebugParams 0 debugDispatchKwargs then
    let r := executeDebug env st [] debugCommand
    .ok ⟨true, r.cwd, r.stdout, r.stderr, r.success, debugNote⟩
  else
    .error "TypeError: execute_debug() missing 1 required positional argument: 'patch'".data

/-! ## docker_validator.py: scoring (claim C6) -/

/-- Insert into a Python dict modelled as an ordered association list
(first-insertion order, later values overwrite). -/
def dictInsert (m : List (Str × Bool)) (k : Str) (v : Bool) : List (Str × Bool) :=
  if m.any (fun p => p.1 = k) then
    m.map (fun p => if p.1 = k then (k, v) else p)
  else m ++ [(k, v)]

/-- The `fail_to_pass_results` / `pass_to_pass_results` dicts: one
`_run_single_test` call per requested test, keyed by test name.  `outcome`
is the environment model of a test run (`passed = (exit == 0)`); the spec
takes test commands as deterministic, so reruns of a duplicated name agree. -/
def buildResults (tests : List Str) (outcome : Str → Bool) : List (Str × Bool) :=
  tests.foldl (fun m t => dictInsert m t (outcome t)) []

/-- The `result.summary` dict computed by `run_validation`
(docker_validator.py lines 336-356).  Scores are rationals standing for the
Python floats. -/
structure ValidationSummary where
  passed : Nat
  failed : Nat
  total : Nat
  score : ℚ
  f2pPassed : Nat
  f2pTotal : Nat
  f2pScore : ℚ
  p2pPassed : Nat
  p2pTotal : Nat
  p2pScore : ℚ
deriving DecidableEq

/-- `run_validation`'s summary computation over the two result dicts. -/
def runValidationSummary (f2p p2p : List Str) (outcome : Str → Bool) :
    ValidationSummary :=
  let fr := buildResults f2p outcome
  let pr := buildResults p2p outcome
  let f2pPassed := fr.countP (fun p => p.2)
  let f2pTotal := fr.length
  let p2pPassed := pr.countP (fun p => p.2)
  let p2pTotal := pr.length
  let passed := f2pPassed + p2pPassed
  let total := f2pTotal + p2pTotal
  { passed := passed
    failed := total - passed
    total := total
    score := if total > 0 then (passed : ℚ) / (total : ℚ) else 0
    f2pPassed := f2pPassed
    f2pTotal := f2pTotal
    f2pScore := if f2pTotal > 0 then (f2pPassed : ℚ) / (f2pTotal : ℚ) else 0
    p2pPassed := p2pPassed
    p2pTotal := p2pTotal
    p2pScore := if p2pTotal > 0 then (p2pPassed : ℚ) / (p2pTotal : ℚ) else 0 }

/-- A task attempt is resolved iff its validation score equals 1.0
(agent.py: the `score == 1.0` tests in `calculate_pass_at_k` and `run`). -/
def isResolved (s : ValidationSummary) : Bool :=
  s.score = 1

/-! ## agent.py: pass@k (claim C7) -/

/-- One attempt record as grouped by `run`: its 1-based attempt index and
validation score (`r.get("score", 0.0)`). -/
structure AttemptRec where
  attempt : Nat
  score : ℚ
deriving DecidableEq

/-- `sorted(attempts, key=lambda x: x["attempt"])`. -/
def sortByAttempt (l : List AttemptRec) : List AttemptRec :=
  l.mergeSort (fun a b => a.attempt ≤ b.attempt)

/-- Whether the first `k` attempts (by attempt index) of one instance contain
a fully resolved result: `any(att.get("score", 0.0) == 1.0 for att in
attempts_sorted[:k])`. -/
def firstKResolved (k : Nat) (attempts : List AttemptRec) : Bool :=
  ((sortByAttempt attempts).take k).any (fun a => a.score = 1)

/-- `calculate_pass_at_k` (agent.py lines 194-201): the fraction of instances
whose first `k` attempts contain a resolved result; `0.0` for an empty
collection. -/
def calculatePassAtK (grouped : List (List AttemptRec)) (k : Nat) : ℚ :=
  if grouped.length = 0 then 0
  else ((grouped.countP (fun a => firstKResolved k a) : ℚ)) / ((grouped.length : ℚ))

/-! ## agent.py: the conversation loop's budget skeleton (claim C8) -/

/-- The orchestrator budgets (`run_multi_turn_conversation` keyword
defaults). -/
structure ConvCfg where
  maxTurns : Nat := 10
  taskTimeout : ℚ := 600
  maxPatchRetries : Nat := 3
deriving DecidableEq

/-- `DEFAULT_TASK_TIMEOUT = 600` (agent.py line 30). -/
def DEFAULT_TASK_TIMEOUT : ℚ := 600

/-- The parsed solver action of one turn. -/
inductive SolverAction
  | bash (c : Str)
  | patch (c : Str)
  | debug (c : Str)
deriving DecidableEq

/-- Environment model of one loop iteration: the wall clock read at the top
of the turn, the parsed action of the pending solver reply (`none` for an
unrecognised reply), whether a submitted patch applies, and whether the
follow-up message to the solver goes through. -/
structure TurnEvent where
  now : ℚ
  action : Option SolverAction := none
  patchApplies : Bool := false
  messagingOk : Bool := true
deriving DecidableEq

/-- How an attempt's conversation ends. -/
inductive ConvError
  | taskTimeout (limit : ℚ)
  | maxTurns (limit : Nat)
  | patchRetries (attempts : Nat)
  | messaging
  | typeErrorDebug
deriving DecidableEq

/-- Outcome of the conversation loop: terminal error (`none` = a patch
applied and validation ran), the final turn counter, and how many solver
actions were dispatched to the sandbox. -/
structure ConvOutcome where
  error : Option ConvError
  turns : Nat
  dispatches : Nat
deriving DecidableEq

/-- The `while turn < max_turns` loop of `run_multi_turn_conversation`
(agent.py lines 345-566), driven by per-turn events.  `fuel` is
`max_turns - turn`.  At the top of each turn the elapsed wall-clock time
since `start_time` (`t0`, read at function entry, just before the sandbox is
provisioned) is compared against `task_timeout`; on expiry the attempt fails
with the timeout error before any further dispatch.  The debug branch raises
`TypeError` (see `debugDispatch`), ending the attempt without a dispatch. -/
def convLoop (cfg : ConvCfg) (t0 : ℚ) (events : Nat → TurnEvent) :
    Nat → Nat → Nat → Nat → ConvOutcome
  | 0, turn, _, disp => ⟨some (.maxTurns cfg.maxTurns), turn, disp⟩
  | fuel + 1, turn, patchAttempts, disp =>
    let e := events turn
    if e.now - t0 > cfg.taskTimeout then
      ⟨some (.taskTimeout cfg.taskTimeout), turn, disp⟩
    else
      match e.action with
      | some (.patch _) =>
        if e.patchApplies then ⟨none, turn + 1, disp + 1⟩
        else if cfg.maxPatchRetries ≤ patchAttempts + 1 then
          ⟨some (.patchRetries (patchAttempts + 1)), turn + 1, disp + 1⟩
        else if e.messagingOk then
          convLoop cfg t0 events fuel (turn + 1) (patchAttempts + 1) (disp + 1)
        else ⟨some .messaging, turn + 1, disp + 1⟩
      | some (.bash _) =>
        if e.messagingOk then
          convLoop cfg t0 events fuel (turn + 1) patchAttempts (disp + 1)
        else ⟨some .messaging, turn + 1, disp + 1⟩
      | some (.debug _) => ⟨some .typeErrorDebug, turn + 1, disp⟩
      | none =>
        if e.messagingOk then
          convLoop cfg t0 events fuel (turn + 1) patchAttempts disp
        else ⟨some .messaging, turn + 1, disp⟩

/-- An attempt's conversation: `start_time = time.time()` is read at entry
(agent.py line 292), before `container.start` (line 304), and the loop runs
with `turn = 0`, `patch_attempts = 0`. -/
def runConversation (cfg : ConvCfg) (t0 : ℚ) (events : Nat → TurnEvent) :
    ConvOutcome :=
  convLoop cfg t0 events cfg.maxTurns 0 0 0

/-! ## Concrete environments used to evaluate the code on specific inputs -/

/-- An environment in which every container execution succeeds with empty
output (in particular, every `test -d` probe reports an existing
directory). -/
def allOkOracle : ExecOracle := fun _ _ => { success := true }

/-- An environment in which every container execution fails (in particular,
every `test -d` probe reports a missing directory). -/
def failOracle : ExecOracle := fun _ _ => { success := false }

/-- An environment in which exactly the real repository directories
`/workspace/repo` and `/workspace/repo/tests` exist. -/
def realDirOracle : ExecOracle := fun c _ =>
  if c = "test -d '/workspace/repo'".data then { success := true }
  else if c = "test -d '/workspace/repo/tests'".data then { success := true }
  else { success := false }

/-- A started sandbox at the repo root for task with base commit
`abc12345`. -/
def sampleState : CState :=
  { started := true, cwd := REPO_ROOT, baseCommit := "abc12345".data
    protectedTestFiles := [] }

/-- The same sandbox with the tracked cwd inside a subdirectory. -/
def sampleStateTests : CState :=
  { sampleState with cwd := "/workspace/repo/tests".data }

/-- A started sandbox whose task's `test_patch` touched
`tests/test_models.py` (spec scenario 4). -/
def sampleStateProtected : CState :=
  { sampleState with protectedTestFiles := ["tests/test_models.py".data] }

/-- A debug environment whose command execution produces outputs longer than
the bash truncation limits (10,001 and 2,001 characters). -/
def longOutputDebugEnv : DebugEnv :=
  { execOut := fun _ _ =>
      { stdout := List.replicate 10001 'a'
        stderr := List.replicate 2001 'b'
        success := true } }

/-! # Theorems -/

/-! ## Generic string lemmas -/

theorem splitOnChar_ne_nil (sep : Char) (l : Str) : splitOnChar sep l ≠ [] := by
  induction l with
  | nil => simp [splitOnChar]
  | cons c rest ih =>
    unfold splitOnChar
    split
    · simp
    · split <;> simp

theorem splitOnChar_cons_eq (sep : Char) (l : Str) :
    splitOnChar sep (sep :: l) = [] :: splitOnChar sep l := by
  cases h : splitOnChar sep l with
  | nil => exact absurd h (splitOnChar_ne_nil sep l)
  | cons r rs => simp [splitOnChar, h]

theorem splitOnChar_cons_ne (sep c : Char) (l : Str) (hc : c ≠ sep)
    (r : Str) (rs : List Str) (h : splitOnChar sep l = r :: rs) :
    splitOnChar sep (c :: l) = (c :: r) :: rs := by
  simp [splitOnChar, h, hc]

theorem mem_of_mem_splitOnChar (sep : Char) :
    ∀ (l line : Str), line ∈ splitOnChar sep l → ∀ c ∈ line, c ∈ l := by
  intro l
  induction l with
  | nil =>
    intro line hline c hc
    simp [splitOnChar] at hline
    subst hline
    simp at hc
  | cons a rest ih =>
    intro line hline c hc
    cases h : splitOnChar sep rest with
    | nil => exact absurd h (splitOnChar_ne_nil sep rest)
    | cons r rs =>
      by_cases ha : a = sep
      · rw [ha, splitOnChar_cons_eq] at hline
        rcases List.mem_cons.mp hline with hline | hline
        · simp [hline] at hc
        · exact List.mem_cons_of_mem a (ih line hline c hc)
      · rw [splitOnChar_cons_ne sep a rest ha r rs h] at hline
        rcases List.mem_cons.mp hline with hline | hline
        · rw [hline] at hc
          rcases List.mem_cons.mp hc with hc | hc
          · exact hc ▸ List.mem_cons_self a rest
          · exact List.mem_cons_of_mem a
              (ih r (h ▸ List.mem_cons_self r rs) c hc)
        · exact List.mem_cons_of_mem a
            (ih line (h ▸ List.mem_cons_of_mem r hline) c hc)

theorem pyStrip_eq_nil_iff (l : Str) :
    pyStrip l = [] ↔ ∀ c ∈ l, isPySpace c = true := by
  unfold pyStrip
  constructor
  · intro h
    rw [List.reverse_eq_nil_iff, List.dropWhile_eq_nil_iff] at h
    have h3 : ∀ c ∈ l.dropWhile isPySpace, isPySpace c = true := by
      intro c hc
      exact h c (List.mem_reverse.mpr hc)
    intro c hc
    rw [← List.takeWhile_append_dropWhile isPySpace l] at hc
    rcases List.mem_append.mp hc with hc | hc
    · exact List.mem_takeWhile_imp hc
    · exact h3 c hc
  · intro h
    have hd : l.dropWhile isPySpace = [] := List.dropWhile_eq_nil_iff.mpr h
    simp [hd]

theorem substrOf_iff (n h : Str) : substrOf n h = true ↔ n <:+: h := by
  unfold substrOf
  rw [List.any_eq_true]
  constructor
  · rintro ⟨t, ht, hp⟩
    exact List.infix_iff_prefix_suffix.mpr
      ⟨t, List.isPrefixOf_iff_prefix.mp hp, (List.mem_tails t h).mp ht⟩
  · intro hi
    rcases List.infix_iff_prefix_suffix.mp hi with ⟨t, hp, hs⟩
    exact ⟨t, (List.mem_tails t h).mpr hs, List.isPrefixOf_iff_prefix.mpr hp⟩

theorem mem_of_substrOf {n h : Str} (hs : substrOf n h = true) :
    ∀ c ∈ n, c ∈ h := by
  intro c hc
  exact ((substrOf_iff n h).mp hs).subset hc

/-! ## Claim C1 -/

/-- Claim C1 (the code, as written): for every solver turn whose reply parses
to `action=debug`, the orchestrator's dispatch raises `TypeError` — the call
`execute_debug(command=..., timeout=...)` leaves the required positional
parameter `patch` unbound — so `execute_debug` never runs and no
`{debug_result: true, ...}` message is ever produced.  This refutes the
claim's description of the code and establishes the divergence underlying
its `code_bug` status. -/
theorem claim_C1_debug_dispatch_raises (env : DebugEnv) (st : CState)
    (content : Str) :
    debugDispatch env st content =
      .error ("TypeError: execute_debug() missing 1 required positional argument: 'patch'".data) := by
  have h : pyCallOk executeDebugParams 0 debugDispatchKwargs = false := by decide
  simp [debugDispatch, h]

/-! ## Claim C2 -/

theorem extractFilesFromPatch_eq_nil_of_strip_nil {patch : Str}
    (h : pyStrip patch = []) : extractFilesFromPatch patch = [] := by
  have hall := (pyStrip_eq_nil_iff patch).mp h
  unfold extractFilesFromPatch
  rw [List.filterMap_eq_nil_iff]
  intro line hline
  by_cases hp : ("+++ ".data).isPrefixOf line
  · exfalso
    have hplus : '+' ∈ line := by
      have hpre := List.isPrefixOf_iff_prefix.mp hp
      exact hpre.subset (by decide)
    have : '+' ∈ patch := mem_of_mem_splitOnChar '\n' patch line hline '+' hplus
    have := hall '+' this
    simp [isPySpace] at this
  · simp [hp]

/-- Claim C2: on a started sandbox, `apply_patch` rejects an empty (or
whitespace-only) patch with `success=false`, and whenever the `+++` paths of
the diff intersect the protected set it rejects with the dedicated
`Cannot modify protected test files` message; in both cases no command is
handed to the container, so no file is modified and no write-permission
window is opened. -/
theorem claim_C2_apply_patch_gate (o : ExecOracle) (env : PatchEnv)
    (st : CState) (patch : Str) (hst : st.started = true) :
    (pyStrip patch = [] →
      (applyPatch o env st patch).result.success = false ∧
      (applyPatch o env st patch).execs = []) ∧
    ((extractFilesFromPatch patch).filter
        (fun f => st.protectedTestFiles.contains f) ≠ [] →
      (applyPatch o env st patch).result.success = false ∧
      (applyPatch o env st patch).result.stderr =
        "Cannot modify protected test files: ".data ++
          List.intercalate (", ".data)
            ((extractFilesFromPatch patch).filter
              (fun f => st.protectedTestFiles.contains f)) ∧
      (applyPatch o env st patch).execs = []) := by
  constructor
  · intro hempty
    unfold applyPatch
    simp [hst, hempty]
  · intro hviol
    have hstrip : pyStrip patch ≠ [] := by
      intro hnil
      rw [extractFilesFromPatch_eq_nil_of_strip_nil hnil] at hviol
      simp at hviol
    have hpatch : patch ≠ [] := by
      intro hnil
      exact hstrip (by simp [hnil, pyStrip])
    have hex : ∃ x ∈ extractFilesFromPatch patch, x ∈ st.protectedTestFiles := by
      rcases List.exists_mem_of_ne_nil _ hviol with ⟨x, hx⟩
      rw [List.mem_filter] at hx
      exact ⟨x, hx.1, by simpa using hx.2⟩
    unfold applyPatch
    simp [hst, hstrip, hpatch, hex]

/-! ## Claim C3 (counterexample part) -/

/-- Claim C3, refuted as stated: from the repo root (a descendant), the
command `cd /workspace/repoX` passes the `_is_within_repo` string-prefix
test (`/workspace/repoX`.startswith(`/workspace/repo`)), and when that
directory exists the tracked cwd becomes `/workspace/repoX` — not a
descendant of the repo root. -/
theorem claim_C3_counterexample :
    isRepoDescendant sampleState.cwd = true ∧
    (executeBash allOkOracle sampleState ("cd /workspace/repoX".data)).result.success = true ∧
    (executeBash allOkOracle sampleState ("cd /workspace/repoX".data)).state.cwd
      = "/workspace/repoX".data ∧
    isRepoDescendant
      (executeBash allOkOracle sampleState ("cd /workspace/repoX".data)).state.cwd
      = false := by
  decide

/-! ## Claim C4 (counterexample part) -/

/-- Claim C4, refuted as stated: `ls --directory=/tmp` literally references
the blocked token `/tmp` (as the path value of an `=`-joined argument), yet
none of `_contains_blocked_path`'s patterns match, so the shell is invoked
and the call can succeed. -/
theorem claim_C4_counterexample :
    containsBlockedPath (pyStrip ("ls --directory=/tmp".data)) = none ∧
    (executeBash allOkOracle sampleState ("ls --directory=/tmp".data)).result.success = true ∧
    (executeBash allOkOracle sampleState ("ls --directory=/tmp".data)).execs
      = [ "ls --directory=/tmp".data ] := by
  decide

/-! ## Claim C5 (counterexample part) -/

/-- Claim C5, refuted as stated: `git log HEAD abc12345` mentions the
forbidden reference `HEAD`, but because the command also mentions the task's
base commit (`abc12345`), `_check_git_restriction`'s `git log` branch lets
it through and git is invoked. -/
theorem claim_C5_counterexample :
    substrOf ("HEAD".data) (pyStrip ("git log HEAD abc12345".data)) = true ∧
    checkGitRestriction sampleState (pyStrip ("git log HEAD abc12345".data)) = none ∧
    (executeBash allOkOracle sampleState ("git log HEAD abc12345".data)).result.success = true ∧
    (executeBash allOkOracle sampleState ("git log HEAD abc12345".data)).execs
      = [ "git log HEAD abc12345".data ] := by
  decide

/-! ## Claim C9 -/

/-- Claim C9 (the code, as written): with the tracked cwd at
`/workspace/repo/tests`, the command `cd /workspace/repo && cd .` is routed
to `_handle_cd` (it starts with `cd `), which treats the entire remainder
`/workspace/repo && cd .` as one directory name; the directory does not
exist, the call fails, and the tracked cwd stays `/workspace/repo/tests`
instead of becoming the repo root.  This establishes the divergence
underlying the claim's `code_bug` status. -/
theorem claim_C9_compound_cd_failing_input :
    (executeBash realDirOracle sampleStateTests ("cd /workspace/repo && cd .".data)).result.success
      = false ∧
    (executeBash realDirOracle sampleStateTests ("cd /workspace/repo && cd .".data)).result.stderr
      = "bash: cd: /workspace/repo && cd .: No such file or directory".data ∧
    (executeBash realDirOracle sampleStateTests ("cd /workspace/repo && cd .".data)).state.cwd
      = "/workspace/repo/tests".data ∧
    "/workspace/repo/tests".data ≠ REPO_ROOT := by
  decide

/-- Witness for C2: spec scenario 4 — a patch whose diff contains
`+++ b/tests/test_models.py` against a sandbox protecting that file is
rejected without any container command. -/
theorem claim_C2_witness :
    (applyPatch allOkOracle {} sampleStateProtected
      ("--- a/tests/test_models.py\n+++ b/tests/test_models.py\n".data)).result.success = false ∧
    (applyPatch allOkOracle {} sampleStateProtected
      ("--- a/tests/test_models.py\n+++ b/tests/test_models.py\n".data)).execs = [] := by
  have h := (claim_C2_apply_patch_gate allOkOracle {} sampleStateProtected
      ("--- a/tests/test_models.py\n+++ b/tests/test_models.py\n".data) (by decide)).2 (by decide)
  exact ⟨h.1, h.2.2⟩

/-! ## Claim C6 -/

theorem mem_dictInsert_cases (m : List (Str × Bool)) (k : Str) (v : Bool) :
    ∀ p ∈ dictInsert m k v, p = (k, v) ∨ p ∈ m := by
  intro p hp
  unfold dictInsert at hp
  split at hp
  · rcases List.mem_map.mp hp with ⟨q, hq, hmap⟩
    by_cases hk : q.1 = k
    · rw [if_pos hk] at hmap
      exact Or.inl hmap.symm
    · rw [if_neg hk] at hmap
      exact Or.inr (hmap ▸ hq)
  · rcases List.mem_append.mp hp with hp | hp
    · exact Or.inr hp
    · rcases List.mem_singleton.mp hp with rfl
      exact Or.inl rfl

theorem key_mem_dictInsert (m : List (Str × Bool)) (k : Str) (v : Bool) :
    ∃ p ∈ dictInsert m k v, p.1 = k := by
  unfold dictInsert
  split
  · next hany =>
    rcases List.any_eq_true.mp hany with ⟨q, hq, hqk⟩
    have hqk' : q.1 = k := by simpa using hqk
    refine ⟨(k, v), List.mem_map.mpr ⟨q, hq, ?_⟩, rfl⟩
    rw [if_pos hqk']
  · exact ⟨(k, v), List.mem_append.mpr (Or.inr (List.mem_singleton.mpr rfl)), rfl⟩

theorem key_preserved_dictInsert (m : List (Str × Bool)) (k q : Str) (v : Bool)
    (h : ∃ p ∈ m, p.1 = q) : ∃ p ∈ dictInsert m k v, p.1 = q := by
  rcases h with ⟨p, hp, hpq⟩
  unfold dictInsert
  split
  · by_cases hk : p.1 = k
    · exact ⟨(k, v), List.mem_map.mpr ⟨p, hp, by rw [if_pos hk]⟩, by rw [← hk, hpq]⟩
    · exact ⟨p, List.mem_map.mpr ⟨p, hp, by rw [if_neg hk]⟩, hpq⟩
  · exact ⟨p, List.mem_append.mpr (Or.inl hp), hpq⟩

theorem buildResults_invariant (outcome : Str → Bool) (S : List Str) :
    ∀ (tests : List Str) (m : List (Str × Bool)),
      (∀ t ∈ tests, t ∈ S) →
      (∀ p ∈ m, p.2 = outcome p.1 ∧ p.1 ∈ S) →
      ∀ p ∈ tests.foldl (fun m t => dictInsert m t (outcome t)) m,
        p.2 = outcome p.1 ∧ p.1 ∈ S := by
  intro tests
  induction tests with
  | nil => intro m _ hm; simpa using hm
  | cons t ts ih =>
    intro m hts hm p hp
    refine ih (dictInsert m t (outcome t)) (fun u hu => hts u (List.mem_cons_of_mem t hu))
      ?_ p hp
    intro q hq
    rcases mem_dictInsert_cases m t (outcome t) q hq with hq | hq
    · rw [hq]
      exact ⟨rfl, hts t (List.mem_cons_self t ts)⟩
    · exact hm q hq

theorem buildResults_key_exists (outcome : Str → Bool) :
    ∀ (tests : List Str) (m : List (Str × Bool)) (q : Str),
      ((∃ p ∈ m, p.1 = q) ∨ q ∈ tests) →
      ∃ p ∈ tests.foldl (fun m t => dictInsert m t (outcome t)) m, p.1 = q := by
  intro tests
  induction tests with
  | nil =>
    intro m q hq
    rcases hq with hq | hq
    · simpa using hq
    · simp at hq
  | cons t ts ih =>
    intro m q hq
    refine ih (dictInsert m t (outcome t)) q ?_
    rcases hq with hq | hq
    · exact Or.inl (key_preserved_dictInsert m t q (outcome t) hq)
    · rcases List.mem_cons.mp hq with rfl | hq
      · exact Or.inl (key_mem_dictInsert m q (outcome q))
      · exact Or.inr hq

theorem buildResults_all_passed_iff (tests : List Str) (outcome : Str → Bool) :
    ((buildResults tests outcome).countP (fun p => p.2) =
        (buildResults tests outcome).length) ↔
      ∀ t ∈ tests, outcome t = true := by
  rw [List.countP_eq_length]
  constructor
  · intro h t ht
    rcases buildResults_key_exists outcome tests [] t (Or.inr ht) with ⟨p, hp, hpk⟩
    have hval := (buildResults_invariant outcome tests tests []
      (fun _ hu => hu) (by simp) p hp).1
    have hpassed := h p hp
    rw [hval, hpk] at hpassed
    exact hpassed
  · intro h p hp
    have hinv := buildResults_invariant outcome tests tests []
      (fun _ hu => hu) (by simp) p hp
    rw [hinv.1]
    exact h p.1 hinv.2

/-- Claim C6: the validator's scores are the claimed ratios
(`f2p_score = passed(F)/|F|`, `p2p_score = passed(P)/|P|`,
`overall = (passed(F)+passed(P))/(|F|+|P|)`) with empty denominators scoring
`0.0`; an attempt is resolved iff the overall score equals 1.0, which — when
any test was requested — holds iff every requested test passed. -/
theorem claim_C6_scoring (f2p p2p : List Str) (outcome : Str → Bool)
    (s : ValidationSummary) (hs : s = runValidationSummary f2p p2p outcome) :
    (s.f2pTotal ≠ 0 → s.f2pScore = (s.f2pPassed : ℚ) / (s.f2pTotal : ℚ)) ∧
    (s.f2pTotal = 0 → s.f2pScore = 0) ∧
    (s.p2pTotal ≠ 0 → s.p2pScore = (s.p2pPassed : ℚ) / (s.p2pTotal : ℚ)) ∧
    (s.p2pTotal = 0 → s.p2pScore = 0) ∧
    (s.total ≠ 0 →
      s.score = ((s.f2pPassed : ℚ) + (s.p2pPassed : ℚ)) /
                ((s.f2pTotal : ℚ) + (s.p2pTotal : ℚ))) ∧
    (s.total = 0 → s.score = 0) ∧
    (isResolved s = true ↔ s.score = 1) ∧
    (s.total ≠ 0 →
      (isResolved s = true ↔ ∀ t ∈ f2p ++ p2p, outcome t = true)) := by
  subst hs
  simp only [runValidationSummary, isResolved]
  have hFle : (buildResults f2p outcome).countP (fun p => p.2) ≤
      (buildResults f2p outcome).length := List.countP_le_length _
  have hPle : (buildResults p2p outcome).countP (fun p => p.2) ≤
      (buildResults p2p outcome).length := List.countP_le_length _
  refine ⟨?_, ?_, ?_, ?_, ?_, ?_, ?_, ?_⟩
  · intro h
    rw [if_pos (Nat.pos_of_ne_zero h)]
  · intro h
    rw [h]
    simp
  · intro h
    rw [if_pos (Nat.pos_of_ne_zero h)]
  · intro h
    rw [h]
    simp
  · intro h
    rw [if_pos (Nat.pos_of_ne_zero h)]
    push_cast
    ring
  · intro h
    rw [h]
    simp
  · exact decide_eq_true_iff
  · intro h
    rw [decide_eq_true_eq, if_pos (Nat.pos_of_ne_zero h)]
    have hcast : (((buildResults f2p outcome).length +
        (buildResults p2p outcome).length : Nat) : ℚ) ≠ 0 := by
      exact_mod_cast h
    rw [div_eq_one_iff_eq hcast, Nat.cast_inj]
    constructor
    · intro heq t ht
      have h1 : (buildResults f2p outcome).countP (fun p => p.2) =
            (buildResults f2p outcome).length ∧
          (buildResults p2p outcome).countP (fun p => p.2) =
            (buildResults p2p outcome).length := by omega
      rcases List.mem_append.mp ht with ht | ht
      · exact (buildResults_all_passed_iff f2p outcome).mp h1.1 t ht
      · exact (buildResults_all_passed_iff p2p outcome).mp h1.2 t ht
    · intro hall
      have h1 : (buildResults f2p outcome).countP (fun p => p.2) =
          (buildResults f2p outcome).length :=
        (buildResults_all_passed_iff f2p outcome).mpr
          (fun t ht => hall t (List.mem_append_left p2p ht))
      have h2 : (buildResults p2p outcome).countP (fun p => p.2) =
          (buildResults p2p outcome).length :=
        (buildResults_all_passed_iff p2p outcome).mpr
          (fun t ht => hall t (List.mem_append_right f2p ht))
      omega

/-- Witness for C6: two fail-to-pass tests and one pass-to-pass test, all
passing, give a resolved attempt. -/
theorem claim_C6_witness :
    isResolved (runValidationSummary ["a".data, "b".data] ["c".data]
      (fun _ => true)) = true := by
  have h := claim_C6_scoring ["a".data, "b".data] ["c".data] (fun _ => true)
    (runValidationSummary ["a".data, "b".data] ["c".data] (fun _ => true)) rfl
  have htot : (runValidationSummary ["a".data, "b".data] ["c".data]
      (fun _ => true)).total ≠ 0 := by decide
  have hall : ∀ t ∈ ["a".data, "b".data] ++ ["c".data],
      (fun (_ : Str) => true) t = true := by decide
  exact (h.2.2.2.2.2.2.2 htot).mpr hall

/-! ## Claim C7 -/

theorem firstKResolved_mono {j k : Nat} (hjk : j ≤ k) (a : List AttemptRec)
    (h : firstKResolved j a = true) : firstKResolved k a = true := by
  unfold firstKResolved at h ⊢
  rw [List.any_eq_true] at h ⊢
  obtain ⟨x, hx, hsc⟩ := h
  have heq : List.take j (sortByAttempt a) =
      List.take j (List.take k (sortByAttempt a)) := by
    rw [List.take_take, inf_eq_left.mpr hjk]
  exact ⟨x, List.take_subset j (List.take k (sortByAttempt a)) (heq ▸ hx), hsc⟩

/-- Claim C7: for a non-empty grouped collection of attempts, `pass@j` is the
fraction of instances whose first `j` attempts (ordered by attempt index)
contain a result with score 1.0, and `pass@k` is monotone non-decreasing in
`k`. -/
theorem claim_C7_pass_at_k (grouped : List (List AttemptRec)) (j k : Nat)
    (hne : grouped ≠ []) (hjk : j ≤ k) :
    calculatePassAtK grouped j =
      ((grouped.countP (fun a => firstKResolved j a) : ℚ)) /
        ((grouped.length : ℚ)) ∧
    calculatePassAtK grouped j ≤ calculatePassAtK grouped k := by
  have hlen : grouped.length ≠ 0 := fun h => hne (List.length_eq_zero.mp h)
  constructor
  · unfold calculatePassAtK
    rw [if_neg hlen]
  · unfold calculatePassAtK
    rw [if_neg hlen, if_neg hlen]
    have hpos : (0 : ℚ) < (grouped.length : ℚ) := by
      exact_mod_cast Nat.pos_of_ne_zero hlen
    rw [div_le_div_iff_of_pos_right hpos]
    exact_mod_cast List.countP_mono_left
      (fun a _ h => firstKResolved_mono hjk a h)

/-- Witness for C7: spec scenario 6 — one instance, three attempts scoring
0.4, 1.0, 0.0 give pass@1 = 0, pass@2 = 1, and pass@1 ≤ pass@2. -/
theorem claim_C7_witness :
    calculatePassAtK [[⟨1, 2/5⟩, ⟨2, 1⟩, ⟨3, 0⟩]] 1 =
      (([[(⟨1, 2/5⟩ : AttemptRec), ⟨2, 1⟩, ⟨3, 0⟩]].countP
        (fun a => firstKResolved 1 a) : ℚ)) / 1 ∧
    calculatePassAtK [[⟨1, 2/5⟩, ⟨2, 1⟩, ⟨3, 0⟩]] 1 ≤
      calculatePassAtK [[⟨1, 2/5⟩, ⟨2, 1⟩, ⟨3, 0⟩]] 2 := by
  have h := claim_C7_pass_at_k [[⟨1, 2/5⟩, ⟨2, 1⟩, ⟨3, 0⟩]] 1 2
    (by simp) (by norm_num)
  exact ⟨by rw [h.1]; norm_num, h.2⟩

/-! ## Claim C8 -/

/-- Claim C8: the task budget clock starts when sandbox provisioning begins
(`start_time` at the top of `run_multi_turn_conversation`, just before
`container.start`), the default is 600 s, and whenever the elapsed time read
at the top of a turn exceeds `task_timeout`, the attempt ends with the
timeout error — the turn counter and dispatch count are left as they were,
so no further solver dispatch occurs. -/
theorem claim_C8_task_timeout (cfg : ConvCfg) (t0 : ℚ)
    (events : Nat → TurnEvent) (fuel turn patchAttempts disp : Nat)
    (hfuel : fuel ≠ 0)
    (hto : (events turn).now - t0 > cfg.taskTimeout) :
    convLoop cfg t0 events fuel turn patchAttempts disp =
      ⟨some (.taskTimeout cfg.taskTimeout), turn, disp⟩ ∧
    DEFAULT_TASK_TIMEOUT = 600 ∧ ({} : ConvCfg).taskTimeout = 600 := by
  refine ⟨?_, rfl, rfl⟩
  cases fuel with
  | zero => exact absurd rfl hfuel
  | succ n =>
    simp only [convLoop]
    rw [if_pos hto]

/-- Witness for C8: with the default configuration, a wall-clock reading of
601 s at the top of the first turn ends the attempt with the timeout error
and zero dispatches. -/
theorem claim_C8_witness :
    convLoop {} 0 (fun _ => { now := 601 }) 10 0 0 0 =
      { error := some (ConvError.taskTimeout 600), turns := 0, dispatches := 0 } :=
  (claim_C8_task_timeout {} 0 (fun _ => { now := 601 }) 10 0 0 0
    (by decide) (by norm_num)).1

/-! ## Claim C3 (amended part) -/

theorem handleCd_within (o : ExecOracle) (st : CState) (cmd : Str)
    (h : isWithinRepo st.cwd = true) :
    isWithinRepo (handleCd o st cmd).state.cwd = true := by
  simp only [handleCd]
  split
  · exact h
  · split
    · exact h
    · split
      · exact h
      · next hin =>
        split
        · exact h
        · simpa using hin

theorem handleCompound_within (o : ExecOracle) (st : CState) (cmd : Str)
    (h : isWithinRepo st.cwd = true) :
    isWithinRepo (handleCompound o st cmd).state.cwd = true := by
  simp only [handleCompound]
  split
  · split
    · split
      · next hin => simpa using hin
      · exact h
    · exact h
  · exact h

/-- Claim C3, amended: after every `execute_bash` call the tracked cwd still
satisfies the implementation's own check `_is_within_repo` (normalise, then
string-prefix `/workspace/repo` — which also admits siblings such as
`/workspace/repoX`, so "descendant of repo_root" does not hold, see the
counterexample); and every cd target is resolved against the current cwd,
normalised, and rejected with the cwd unchanged when it fails the prefix
check or the target directory does not exist. -/
theorem claim_C3_amended (o : ExecOracle) (st : CState) (cmd : Str)
    (hcwd : isWithinRepo st.cwd = true) :
    isWithinRepo (executeBash o st cmd).state.cwd = true ∧
    ((handleCd o st cmd).result.success = true →
      (handleCd o st cmd).state.cwd = resolvePath st.cwd (cdTarget cmd) ∧
      isWithinRepo (handleCd o st cmd).state.cwd = true) ∧
    (isWithinRepo (resolvePath st.cwd (cdTarget cmd)) = false →
      (handleCd o st cmd).result.success = false ∧
      (handleCd o st cmd).state = st) ∧
    ((execInContainer o st.cwd
        ("test -d '".data ++ resolvePath st.cwd (cdTarget cmd) ++ "'".data)).success = false →
      (handleCd o st cmd).result.success = false ∧
      (handleCd o st cmd).state = st) := by
  refine ⟨?_, ?_, ?_, ?_⟩
  · simp only [executeBash]
    split
    · exact hcwd
    · split
      · exact hcwd
      · split
        · exact hcwd
        · split
          · exact handleCd_within o st (pyStrip cmd) hcwd
          · split
            · exact handleCompound_within o st (pyStrip cmd) hcwd
            · exact hcwd
  · simp only [handleCd]
    split
    · intro hsucc
      simp at hsucc
    · split
      · intro hsucc
        simp [cannotCdResult] at hsucc
      · split
        · intro hsucc
          simp [cannotCdResult] at hsucc
        · next hin =>
          split
          · intro hsucc
            simp at hsucc
          · intro _
            exact ⟨rfl, by simpa using hin⟩
  · intro hout
    simp only [handleCd]
    split
    · exact ⟨rfl, rfl⟩
    · split
      · exact ⟨rfl, rfl⟩
      · split
        · exact ⟨rfl, rfl⟩
        · next hin =>
          exact absurd hout (by simp [show isWithinRepo (resolvePath st.cwd (cdTarget cmd)) = true by simpa using hin])
  · intro hfail
    simp only [handleCd]
    split
    · exact ⟨rfl, rfl⟩
    · split
      · exact ⟨rfl, rfl⟩
      · split
        · exact ⟨rfl, rfl⟩
        · split
          · exact ⟨rfl, rfl⟩
          · next hchk =>
            exact absurd hfail (by simpa using hchk)

/-- Witness for C3 amended: `cd tests` from the repo root succeeds, lands on
`/workspace/repo/tests`, and the prefix invariant holds. -/
theorem claim_C3_witness :
    isWithinRepo
      (executeBash allOkOracle sampleState ("cd tests".data)).state.cwd = true ∧
    (handleCd allOkOracle sampleState ("cd tests".data)).state.cwd =
      resolvePath REPO_ROOT ("tests".data) := by
  have h := claim_C3_amended allOkOracle sampleState ("cd tests".data) (by decide)
  exact ⟨h.1, (h.2.1 (by decide)).1⟩

/-! ## Claim C4 (amended part) -/

/-- Claim C4, amended: whenever `_contains_blocked_path` matches the (fixed,
pattern-based) notion of a blocked-path reference — the stripped command
starts with a blocked token or contains it preceded by a space, quote or
redirection, or after `cat `/`ls ` — `execute_bash` returns `success=false`
with the `Access denied` message and hands nothing to the container.
References in other positions (such as `--directory=/tmp`) are not caught;
see the counterexample. -/
theorem claim_C4_amended (o : ExecOracle) (st : CState) (cmd b : Str)
    (hst : st.started = true)
    (hb : containsBlockedPath (pyStrip cmd) = some b) :
    (executeBash o st cmd).result =
      { cwd := st.cwd, stdout := []
        stderr := "Access denied: ".data ++ b ++
          " is outside the allowed workspace".data
        success := false, error := some ("Blocked path access".data) } ∧
    (executeBash o st cmd).state = st ∧
    (executeBash o st cmd).execs = [] := by
  unfold executeBash
  rw [hst]
  simp [hb]

/-- Witness for C4 amended: spec scenario 2 — `cat /etc/passwd` is denied
with no container execution. -/
theorem claim_C4_witness :
    (executeBash allOkOracle sampleState ("cat /etc/passwd".data)).result =
      { cwd := REPO_ROOT, stdout := []
        stderr := "Access denied: /etc is outside the allowed workspace".data
        success := false, error := some ("Blocked path access".data) } ∧
    (executeBash allOkOracle sampleState ("cat /etc/passwd".data)).state = sampleState ∧
    (executeBash allOkOracle sampleState ("cat /etc/passwd".data)).execs = [] := by
  have h := claim_C4_amended allOkOracle sampleState ("cat /etc/passwd".data)
    ("/etc".data) (by decide) (by decide)
  exact h

/-! ## Claim C5 (amended part) -/

theorem dropWhile_dropWhile (p : Char → Bool) (l : Str) :
    (l.dropWhile p).dropWhile p = l.dropWhile p := by
  induction l with
  | nil => simp
  | cons a rest ih =>
    by_cases h : p a = true
    · simp [List.dropWhile_cons, h, ih]
    · simp [List.dropWhile_cons, h]

theorem dropWhile_suffix (p : Char → Bool) (l : Str) : l.dropWhile p <:+ l := by
  induction l with
  | nil => simp
  | cons a rest ih =>
    by_cases h : p a = true
    · rw [List.dropWhile_cons, if_pos h]
      exact ih.trans (List.suffix_cons a rest)
    · rw [List.dropWhile_cons, if_neg h]

theorem pyStrip_idem (l : Str) : pyStrip (pyStrip l) = pyStrip l := by
  unfold pyStrip
  have hd : ((l.dropWhile isPySpace).reverse.dropWhile isPySpace).reverse <+:
      l.dropWhile isPySpace := by
    have h1 : (l.dropWhile isPySpace).reverse.dropWhile isPySpace <:+
        (l.dropWhile isPySpace).reverse := dropWhile_suffix _ _
    have h2 := List.reverse_prefix.mpr h1
    rwa [List.reverse_reverse] at h2
  have h1 : (((l.dropWhile isPySpace).reverse.dropWhile isPySpace).reverse).dropWhile
      isPySpace = ((l.dropWhile isPySpace).reverse.dropWhile isPySpace).reverse := by
    cases hBe : ((l.dropWhile isPySpace).reverse.dropWhile isPySpace).reverse with
    | nil => simp
    | cons b bs =>
      rcases hd with ⟨t, ht⟩
      rw [hBe] at ht
      have hA : l.dropWhile isPySpace = b :: (bs ++ t) := by
        rw [← ht]
        simp
      have hne : l.dropWhile isPySpace ≠ [] := by
        rw [hA]
        simp
      have hb : isPySpace b = false := by
        have hh := List.head_dropWhile_not isPySpace l hne
        simp [hA] at hh
        exact hh
      rw [List.dropWhile_cons, if_neg (by simp [hb])]
  rw [h1, List.reverse_reverse, dropWhile_dropWhile]

theorem findSome_ite_shape {α β : Type} {l : List α} {p : α → Bool} {g : α → β}
    {r : β}
    (h : l.findSome? (fun x => if p x then some (g x) else none) = some r) :
    ∃ x, r = g x := by
  rcases List.exists_of_findSome?_eq_some h with ⟨x, _, hfx⟩
  by_cases hp : p x = true
  · rw [if_pos hp] at hfx
    exact ⟨x, (Option.some_inj.mp hfx).symm⟩
  · rw [if_neg hp] at hfx
    cases hfx

theorem checkGit_success_false (st : CState) (c : Str) (r : BashResultM)
    (h : checkGitRestriction st c = some r) : r.success = false := by
  simp only [checkGitRestriction] at h
  split at h
  · rcases findSome_ite_shape h with ⟨ref, rfl⟩
    rfl
  · split at h
    · split at h
      · next heq =>
        cases h
        rcases findSome_ite_shape heq with ⟨ref, rfl⟩
        rfl
      · split at h
        · cases h
          rfl
        · cases h
    · split at h
      · rcases findSome_ite_shape h with ⟨ref, rfl⟩
        rfl
      · split at h
        · rcases findSome_ite_shape h with ⟨ref, rfl⟩
          rfl
        · split at h
          · cases h
            rfl
          · split at h
            · cases h
              rfl
            · cases h

theorem executeBash_reject_of_git (o : ExecOracle) (st : CState) (cmd : Str)
    (hst : st.started = true)
    (hsome : (checkGitRestriction st (pyStrip cmd)).isSome = true) :
    (executeBash o st cmd).result.success = false ∧
    (executeBash o st cmd).execs = [] := by
  cases hb : containsBlockedPath (pyStrip cmd) with
  | some b => simp [executeBash, hst, hb]
  | none =>
    cases hgit : checkGitRestriction st (pyStrip cmd) with
    | none =>
      rw [hgit] at hsome
      cases hsome
    | some r =>
      have hr := checkGit_success_false st (pyStrip cmd) r hgit
      simp [executeBash, hst, hb, hgit, hr]

theorem checkGit_isSome_log (st : CState) (c : Str) (hg : pyStrip c = c)
    (hpre : ("git log".data).isPrefixOf c = true)
    (href : ∃ ref ∈ BLOCKED_REFS, substrOf ref c = true)
    (hbase : substrOf st.baseCommit c = false) :
    (checkGitRestriction st c).isSome = true := by
  cases hcg : checkGitRestriction st c with
  | some r => rfl
  | none =>
    exfalso
    simp only [checkGitRestriction, hg] at hcg
    rw [if_pos hpre, List.findSome?_eq_none_iff] at hcg
    rcases href with ⟨ref, hm, hr⟩
    have hnone := hcg ref hm
    rw [if_pos (by rw [hr, hbase]; rfl)] at hnone
    cases hnone

theorem checkGit_isSome_show (st : CState) (c : Str) (hg : pyStrip c = c)
    (hpre : ("git show".data).isPrefixOf c = true)
    (href : ∃ ref ∈ BLOCKED_REFS, substrOf ref c = true) :
    (checkGitRestriction st c).isSome = true := by
  rcases List.isPrefixOf_iff_prefix.mp hpre with ⟨t, rfl⟩
  cases hcg : checkGitRestriction st ("git show".data ++ t) with
  | some r => rfl
  | none =>
    exfalso
    simp only [checkGitRestriction, hg] at hcg
    rw [if_neg (by
      simp [show ("git log".data).isPrefixOf ("git show".data ++ t) = false from rfl]),
      if_pos hpre] at hcg
    split at hcg
    · cases hcg
    · next heq =>
      rw [List.findSome?_eq_none_iff] at heq
      rcases href with ⟨ref, hm, hr⟩
      have hnone := heq ref hm
      rw [if_pos hr] at hnone
      cases hnone

theorem checkGit_isSome_bareShow (st : CState) (c : Str)
    (hc : c = "git show".data) :
    (checkGitRestriction st c).isSome = true := by
  subst hc
  rfl

theorem checkGit_isSome_diff (st : CState) (c : Str) (hg : pyStrip c = c)
    (hpre : ("git diff".data).isPrefixOf c = true)
    (href : ∃ ref ∈ BLOCKED_REFS, substrOf ref c = true) :
    (checkGitRestriction st c).isSome = true := by
  rcases List.isPrefixOf_iff_prefix.mp hpre with ⟨t, rfl⟩
  cases hcg : checkGitRestriction st ("git diff".data ++ t) with
  | some r => rfl
  | none =>
    exfalso
    simp only [checkGitRestriction, hg] at hcg
    rw [if_neg (by
      simp [show ("git log".data).isPrefixOf ("git diff".data ++ t) = false from rfl]),
      if_neg (by
      simp [show ("git show".data).isPrefixOf ("git diff".data ++ t) = false from rfl]),
      if_pos hpre, List.findSome?_eq_none_iff] at hcg
    rcases href with ⟨ref, hm, hr⟩
    have hnone := hcg ref hm
    rw [if_pos hr] at hnone
    cases hnone

theorem checkGit_isSome_checkout (st : CState) (c : Str) (hg : pyStrip c = c)
    (hpre : ("git checkout".data).isPrefixOf c = true)
    (href : ∃ ref ∈ BLOCKED_REFS, substrOf ref c = true) :
    (checkGitRestriction st c).isSome = true := by
  rcases List.isPrefixOf_iff_prefix.mp hpre with ⟨t, rfl⟩
  cases hcg : checkGitRestriction st ("git checkout".data ++ t) with
  | some r => rfl
  | none =>
    exfalso
    simp only [checkGitRestriction, hg] at hcg
    rw [if_neg (by
      simp [show ("git log".data).isPrefixOf ("git checkout".data ++ t) = false from rfl]),
      if_neg (by
      simp [show ("git show".data).isPrefixOf ("git checkout".data ++ t) = false from rfl]),
      if_neg (by
      simp [show ("git diff".data).isPrefixOf ("git checkout".data ++ t) = false from rfl]),
      if_pos hpre, List.findSome?_eq_none_iff] at hcg
    rcases href with ⟨ref, hm, hr⟩
    have hnone := hcg ref hm
    rw [if_pos hr] at hnone
    cases hnone

theorem checkGit_isSome_reset (st : CState) (c : Str) (hg : pyStrip c = c)
    (hpre : ("git reset".data).isPrefixOf c = true) :
    (checkGitRestriction st c).isSome = true := by
  rcases List.isPrefixOf_iff_prefix.mp hpre with ⟨t, rfl⟩
  simp only [checkGitRestriction, hg]
  rw [if_neg (by
    simp [show ("git log".data).isPrefixOf ("git reset".data ++ t) = false from rfl]),
    if_neg (by
    simp [show ("git show".data).isPrefixOf ("git reset".data ++ t) = false from rfl]),
    if_neg (by
    simp [show ("git diff".data).isPrefixOf ("git reset".data ++ t) = false from rfl]),
    if_neg (by
    simp [show ("git checkout".data).isPrefixOf ("git reset".data ++ t) = false from rfl]),
    if_pos hpre]
  rfl

theorem checkGit_isSome_pullFetch (st : CState) (c : Str) (hg : pyStrip c = c)
    (hpre : ("git pull".data).isPrefixOf c = true ∨
            ("git fetch".data).isPrefixOf c = true) :
    (checkGitRestriction st c).isSome = true := by
  rcases hpre with hpre | hpre
  · rcases List.isPrefixOf_iff_prefix.mp hpre with ⟨t, rfl⟩
    simp only [checkGitRestriction, hg]
    rw [if_neg (by
      simp [show ("git log".data).isPrefixOf ("git pull".data ++ t) = false from rfl]),
      if_neg (by
      simp [show ("git show".data).isPrefixOf ("git pull".data ++ t) = false from rfl]),
      if_neg (by
      simp [show ("git diff".data).isPrefixOf ("git pull".data ++ t) = false from rfl]),
      if_neg (by
      simp [show ("git checkout".data).isPrefixOf ("git pull".data ++ t) = false from rfl]),
      if_neg (by
      simp [show ("git reset".data).isPrefixOf ("git pull".data ++ t) = false from rfl]),
      if_pos (by rw [hpre]; rfl)]
    rfl
  · rcases List.isPrefixOf_iff_prefix.mp hpre with ⟨t, rfl⟩
    simp only [checkGitRestriction, hg]
    rw [if_neg (by
      simp [show ("git log".data).isPrefixOf ("git fetch".data ++ t) = false from rfl]),
      if_neg (by
      simp [show ("git show".data).isPrefixOf ("git fetch".data ++ t) = false from rfl]),
      if_neg (by
      simp [show ("git diff".data).isPrefixOf ("git fetch".data ++ t) = false from rfl]),
      if_neg (by
      simp [show ("git checkout".data).isPrefixOf ("git fetch".data ++ t) = false from rfl]),
      if_neg (by
      simp [show ("git reset".data).isPrefixOf ("git fetch".data ++ t) = false from rfl]),
      if_pos (by
        rw [hpre, show ("git pull".data).isPrefixOf ("git fetch".data ++ t) = false from rfl]
        rfl)]
    rfl

/-- Claim C5, amended: git `show`/`diff`/`checkout` commands mentioning a
forbidden reference, `git log` commands mentioning one *that do not also
mention the base commit* (the implementation's escape hatch — see the
counterexample), bare `git show`, and any `git reset`/`git pull`/`git fetch`
are all rejected with `success=false` and nothing handed to the
container. -/
theorem claim_C5_amended (o : ExecOracle) (st : CState) (cmd : Str)
    (hst : st.started = true) :
    (("git log".data).isPrefixOf (pyStrip cmd) = true →
      (∃ ref ∈ BLOCKED_REFS, substrOf ref (pyStrip cmd) = true) →
      substrOf st.baseCommit (pyStrip cmd) = false →
      (executeBash o st cmd).result.success = false ∧
      (executeBash o st cmd).execs = []) ∧
    (("git show".data).isPrefixOf (pyStrip cmd) = true →
      (∃ ref ∈ BLOCKED_REFS, substrOf ref (pyStrip cmd) = true) →
      (executeBash o st cmd).result.success = false ∧
      (executeBash o st cmd).execs = []) ∧
    (pyStrip cmd = "git show".data →
      (executeBash o st cmd).result.success = false ∧
      (executeBash o st cmd).execs = []) ∧
    (("git diff".data).isPrefixOf (pyStrip cmd) = true →
      (∃ ref ∈ BLOCKED_REFS, substrOf ref (pyStrip cmd) = true) →
      (executeBash o st cmd).result.success = false ∧
      (executeBash o st cmd).execs = []) ∧
    (("git checkout".data).isPrefixOf (pyStrip cmd) = true →
      (∃ ref ∈ BLOCKED_REFS, substrOf ref (pyStrip cmd) = true) →
      (executeBash o st cmd).result.success = false ∧
      (executeBash o st cmd).execs = []) ∧
    (("git reset".data).isPrefixOf (pyStrip cmd) = true →
      (executeBash o st cmd).result.success = false ∧
      (executeBash o st cmd).execs = []) ∧
    (("git pull".data).isPrefixOf (pyStrip cmd) = true ∨
        ("git fetch".data).isPrefixOf (pyStrip cmd) = true →
      (executeBash o st cmd).result.success = false ∧
      (executeBash o st cmd).execs = []) := by
  refine ⟨?_, ?_, ?_, ?_, ?_, ?_, ?_⟩
  · intro h1 h2 h3
    exact executeBash_reject_of_git o st cmd hst
      (checkGit_isSome_log st (pyStrip cmd) (pyStrip_idem cmd) h1 h2 h3)
  · intro h1 h2
    exact executeBash_reject_of_git o st cmd hst
      (checkGit_isSome_show st (pyStrip cmd) (pyStrip_idem cmd) h1 h2)
  · intro h1
    exact executeBash_reject_of_git o st cmd hst
      (checkGit_isSome_bareShow st (pyStrip cmd) h1)
  · intro h1 h2
    exact executeBash_reject_of_git o st cmd hst
      (checkGit_isSome_diff st (pyStrip cmd) (pyStrip_idem cmd) h1 h2)
  · intro h1 h2
    exact executeBash_reject_of_git o st cmd hst
      (checkGit_isSome_checkout st (pyStrip cmd) (pyStrip_idem cmd) h1 h2)
  · intro h1
    exact executeBash_reject_of_git o st cmd hst
      (checkGit_isSome_reset st (pyStrip cmd) (pyStrip_idem cmd) h1)
  · intro h1
    exact executeBash_reject_of_git o st cmd hst
      (checkGit_isSome_pullFetch st (pyStrip cmd) (pyStrip_idem cmd) h1)

/-- Witness for C5 amended: spec scenario 3 — `git log HEAD -n 5` is
rejected without invoking git. -/
theorem claim_C5_witness :
    (executeBash allOkOracle sampleState ("git log HEAD -n 5".data)).result.success
      = false ∧
    (executeBash allOkOracle sampleState ("git log HEAD -n 5".data)).execs = [] :=
  (claim_C5_amended allOkOracle sampleState ("git log HEAD -n 5".data)
    (by decide)).1 (by decide) (by decide) (by decide)

/-! ## Claim C10 -/

theorem dropWhile_eq_self_of_head (p : Char → Bool) (l : Str)
    (h : ∀ c, l.head? = some c → p c = false) : l.dropWhile p = l := by
  cases l with
  | nil => rfl
  | cons a rest =>
    rw [List.dropWhile_cons, if_neg (by simp [h a rfl])]

theorem pyStrip_eq_self (l : Str)
    (h1 : ∀ c, l.head? = some c → isPySpace c = false)
    (h2 : ∀ c, l.getLast? = some c → isPySpace c = false) : pyStrip l = l := by
  unfold pyStrip
  rw [dropWhile_eq_self_of_head isPySpace l h1]
  rw [dropWhile_eq_self_of_head isPySpace l.reverse
    (fun c hc => h2 c (by rwa [List.head?_reverse] at hc))]
  exact List.reverse_reverse l

theorem pyStripChars_eq_self (cs : List Char) (l : Str)
    (h1 : ∀ c, l.head? = some c → cs.contains c = false)
    (h2 : ∀ c, l.getLast? = some c → cs.contains c = false) :
    pyStripChars cs l = l := by
  unfold pyStripChars
  rw [dropWhile_eq_self_of_head _ l h1]
  rw [dropWhile_eq_self_of_head _ l.reverse
    (fun c hc => h2 c (by rwa [List.head?_reverse] at hc))]
  exact List.reverse_reverse l

theorem getLast?_replicate (n : Nat) (a : Char) (hn : n ≠ 0) :
    (List.replicate n a).getLast? = some a := by
  obtain ⟨m, rfl⟩ : ∃ m, n = m + 1 := ⟨n - 1, by omega⟩
  rw [List.replicate_succ', List.getLast?_concat]

theorem blocked_paths_have_slash : ∀ b ∈ BLOCKED_PATHS, '/' ∈ b := by decide

theorem containsBlockedPath_eq_none_of_noSlash (cmd : Str)
    (h : ∀ c ∈ cmd, c ≠ '/') : containsBlockedPath cmd = none := by
  unfold containsBlockedPath
  rw [List.findSome?_eq_none_iff]
  intro b hb
  have hsub : substrOf b cmd = false := by
    cases hx : substrOf b cmd with
    | false => rfl
    | true =>
      exfalso
      exact h '/' (mem_of_substrOf hx '/' (blocked_paths_have_slash b hb)) rfl
  rw [if_neg (by simp [hsub])]

theorem isPrefixOf_false_mono {p q c : Str} (hpq : p <+: q)
    (h : p.isPrefixOf c = false) : q.isPrefixOf c = false := by
  cases hx : q.isPrefixOf c with
  | false => rfl
  | true =>
    exfalso
    have hp : p.isPrefixOf c = true :=
      List.isPrefixOf_iff_prefix.mpr
        (hpq.trans (List.isPrefixOf_iff_prefix.mp hx))
    rw [hp] at h
    cases h

theorem not_prefix_mono {p q c : Str} (hpq : p <+: q)
    (h : p.isPrefixOf c = false) : ¬ q <+: c := by
  intro hx
  rw [List.isPrefixOf_iff_prefix.mpr (hpq.trans hx)] at h
  cases h

theorem checkGit_none_of_nongit (st : CState) (c : Str) (hg : pyStrip c = c)
    (hc : ("git ".data).isPrefixOf c = false) :
    checkGitRestriction st c = none := by
  simp only [checkGitRestriction, hg]
  rw [if_neg (by
        simp [not_prefix_mono (q := ['g', 'i', 't', ' ', 'l', 'o', 'g'])
          ⟨"log".data, rfl⟩ hc]),
      if_neg (by
        simp [not_prefix_mono (q := ['g', 'i', 't', ' ', 's', 'h', 'o', 'w'])
          ⟨"show".data, rfl⟩ hc]),
      if_neg (by
        simp [not_prefix_mono (q := ['g', 'i', 't', ' ', 'd', 'i', 'f', 'f'])
          ⟨"diff".data, rfl⟩ hc]),
      if_neg (by
        simp [not_prefix_mono
          (q := ['g', 'i', 't', ' ', 'c', 'h', 'e', 'c', 'k', 'o', 'u', 't'])
          ⟨"checkout".data, rfl⟩ hc]),
      if_neg (by
        simp [not_prefix_mono (q := ['g', 'i', 't', ' ', 'r', 'e', 's', 'e', 't'])
          ⟨"reset".data, rfl⟩ hc]),
      if_neg (by
        simp [not_prefix_mono (q := ['g', 'i', 't', ' ', 'p', 'u', 'l', 'l'])
            ⟨"pull".data, rfl⟩ hc,
          not_prefix_mono (q := ['g', 'i', 't', ' ', 'f', 'e', 't', 'c', 'h'])
            ⟨"fetch".data, rfl⟩ hc])]

theorem cdTarget_cdx (n : Nat) (hn : n ≠ 0) :
    cdTarget ('c' :: 'd' :: ' ' :: List.replicate n 'x') =
      List.replicate n 'x' := by
  obtain ⟨m, rfl⟩ : ∃ m, n = m + 1 := ⟨n - 1, by omega⟩
  show pyStripChars ['\'', '"'] (pyStrip ('x' :: List.replicate m 'x')) =
    List.replicate (m + 1) 'x'
  have hhead : ∀ c, ('x' :: List.replicate m 'x').head? = some c → c = 'x' := by
    intro c hc
    simp at hc
    exact hc.symm
  have hlast : ∀ c, ('x' :: List.replicate m 'x').getLast? = some c → c = 'x' := by
    intro c hc
    rw [← List.replicate_succ, getLast?_replicate (m + 1) 'x' (by omega)] at hc
    simpa using hc.symm
  rw [pyStrip_eq_self _ (fun c hc => by rw [hhead c hc]; rfl)
      (fun c hc => by rw [hlast c hc]; rfl)]
  rw [pyStripChars_eq_self _ _ (fun c hc => by rw [hhead c hc]; rfl)
      (fun c hc => by rw [hlast c hc]; rfl)]
  rw [List.replicate_succ]

theorem splitOnChar_noSep (sep : Char) (l : Str) (h : ∀ c ∈ l, c ≠ sep) :
    splitOnChar sep l = [l] := by
  induction l with
  | nil => rfl
  | cons a rest ih =>
    exact splitOnChar_cons_ne sep a rest (h a (List.mem_cons_self a rest)) rest []
      (ih (fun c hc => h c (List.mem_cons_of_mem a hc)))

theorem splitOnChar_repoSub (sub : Str) (hsub : ∀ c ∈ sub, c ≠ '/') :
    splitOnChar '/' (REPO_ROOT ++ '/' :: sub) =
      [[], "workspace".data, "repo".data, sub] := by
  have h0 : splitOnChar '/' sub = [sub] := splitOnChar_noSep '/' sub hsub
  have h1 : splitOnChar '/' ('/' :: sub) = [[], sub] := by
    rw [splitOnChar_cons_eq, h0]
  have h2 := splitOnChar_cons_ne '/' 'o' ('/' :: sub) (by decide) [] [sub] h1
  have h3 := splitOnChar_cons_ne '/' 'p' _ (by decide) ['o'] [sub] h2
  have h4 := splitOnChar_cons_ne '/' 'e' _ (by decide) ['p', 'o'] [sub] h3
  have h5 := splitOnChar_cons_ne '/' 'r' _ (by decide) ['e', 'p', 'o'] [sub] h4
  have h6 : splitOnChar '/' ('/' :: 'r' :: 'e' :: 'p' :: 'o' :: '/' :: sub) =
      [[], ['r', 'e', 'p', 'o'], sub] := by
    rw [splitOnChar_cons_eq, h5]
  have h7 := splitOnChar_cons_ne '/' 'e' _ (by decide) [] [['r', 'e', 'p', 'o'], sub] h6
  have h8 := splitOnChar_cons_ne '/' 'c' _ (by decide) ['e'] [['r', 'e', 'p', 'o'], sub] h7
  have h9 := splitOnChar_cons_ne '/' 'a' _ (by decide) ['c', 'e'] [['r', 'e', 'p', 'o'], sub] h8
  have h10 := splitOnChar_cons_ne '/' 'p' _ (by decide) ['a', 'c', 'e'] [['r', 'e', 'p', 'o'], sub] h9
  have h11 := splitOnChar_cons_ne '/' 's' _ (by decide) ['p', 'a', 'c', 'e'] [['r', 'e', 'p', 'o'], sub] h10
  have h12 := splitOnChar_cons_ne '/' 'k' _ (by decide) ['s', 'p', 'a', 'c', 'e'] [['r', 'e', 'p', 'o'], sub] h11
  have h13 := splitOnChar_cons_ne '/' 'r' _ (by decide) ['k', 's', 'p', 'a', 'c', 'e'] [['r', 'e', 'p', 'o'], sub] h12
  have h14 := splitOnChar_cons_ne '/' 'o' _ (by decide) ['r', 'k', 's', 'p', 'a', 'c', 'e'] [['r', 'e', 'p', 'o'], sub] h13
  have h15 := splitOnChar_cons_ne '/' 'w' _ (by decide) ['o', 'r', 'k', 's', 'p', 'a', 'c', 'e'] [['r', 'e', 'p', 'o'], sub] h14
  show splitOnChar '/'
      ('/' :: 'w' :: 'o' :: 'r' :: 'k' :: 's' :: 'p' :: 'a' :: 'c' :: 'e' :: '/' ::
       'r' :: 'e' :: 'p' :: 'o' :: '/' :: sub) = _
  rw [splitOnChar_cons_eq, h15]

theorem normPath_repoSub (sub : Str) (hsub : ∀ c ∈ sub, c ≠ '/')
    (hne : sub ≠ []) (hdot : sub ≠ ".".data) (hdd : sub ≠ "..".data) :
    normPath (REPO_ROOT ++ '/' :: sub) = REPO_ROOT ++ '/' :: sub := by
  have hinit : initialSlashes (REPO_ROOT ++ '/' :: sub) = 1 := rfl
  have hsplit := splitOnChar_repoSub sub hsub
  have hlast : normStep 1 ["workspace".data, "repo".data] sub =
      ["workspace".data, "repo".data, sub] := by
    unfold normStep
    rw [if_neg (by simp [hne, hdot]), if_pos (by simp [hdd])]
    rfl
  have hjoin : List.replicate 1 '/' ++ List.intercalate ("/".data)
      ["workspace".data, "repo".data, sub] = REPO_ROOT ++ '/' :: sub := by
    simp [List.intercalate, List.intersperse]
    rfl
  unfold normPath
  rw [hinit, hsplit, List.foldl_cons, List.foldl_cons, List.foldl_cons,
      List.foldl_cons, List.foldl_nil,
      show normStep 1 (normStep 1 (normStep 1 [] []) ("workspace".data))
        ("repo".data) = ["workspace".data, "repo".data] from rfl,
      hlast, hjoin]
  rw [if_neg (by simp)]

set_option maxRecDepth 20000 in
/-- Claim C10, refuted as stated: the cd-failure message embeds the raw
target, so a `cd` command naming a long non-existent path produces an
`execute_bash` result whose stderr (here 2,028 characters) exceeds the
claimed 2,000-character truncation bound. -/
theorem claim_C10_counterexample :
    2000 < (executeBash failOracle sampleState
      ('c' :: 'd' :: ' ' :: List.replicate 1990 'x')).result.stderr.length := by
  have hrepmem : ∀ c ∈ List.replicate 1990 'x', c ≠ '/' := by
    intro c hc
    rw [(List.mem_replicate.mp hc).2]
    decide
  have hmem : ∀ c ∈ ('c' :: 'd' :: ' ' :: List.replicate 1990 'x'), c ≠ '/' := by
    intro c hc
    rcases List.mem_cons.mp hc with rfl | hc
    · decide
    rcases List.mem_cons.mp hc with rfl | hc
    · decide
    rcases List.mem_cons.mp hc with rfl | hc
    · decide
    · exact hrepmem c hc
  have hlastc : ('c' :: 'd' :: ' ' :: List.replicate 1990 'x').getLast? = some 'x' := by
    have hsplit : ('c' :: 'd' :: ' ' :: List.replicate 1990 'x') =
        ('c' :: 'd' :: ' ' :: List.replicate 1989 'x') ++ ['x'] := by
      rw [show (1990 : Nat) = 1989 + 1 from rfl, List.replicate_succ']
      rfl
    rw [hsplit, List.getLast?_concat]
  have hstrip : pyStrip ('c' :: 'd' :: ' ' :: List.replicate 1990 'x') =
      'c' :: 'd' :: ' ' :: List.replicate 1990 'x' := by
    apply pyStrip_eq_self
    · intro c hc
      rw [List.head?_cons] at hc
      injection hc with hc
      subst hc
      rfl
    · intro c hc
      rw [hlastc] at hc
      injection hc with hc
      subst hc
      rfl
  have hblocked := containsBlockedPath_eq_none_of_noSlash
    ('c' :: 'd' :: ' ' :: List.replicate 1990 'x') hmem
  have hgitnone := checkGit_none_of_nongit sampleState
    ('c' :: 'd' :: ' ' :: List.replicate 1990 'x') hstrip rfl
  have htarget := cdTarget_cdx 1990 (by decide)
  have hrep_ne : List.replicate 1990 'x' ≠ [] := by
    intro h
    have hl := congrArg List.length h
    rw [List.length_replicate] at hl
    exact absurd hl (by decide)
  have hrep_ndot : List.replicate 1990 'x' ≠ ".".data := by
    intro h
    have hl := congrArg List.length h
    rw [List.length_replicate] at hl
    exact absurd hl (by decide)
  have hrep_ndd : List.replicate 1990 'x' ≠ "..".data := by
    intro h
    have hl := congrArg List.length h
    rw [List.length_replicate] at hl
    exact absurd hl (by decide)
  have hresolve : resolvePath REPO_ROOT (List.replicate 1990 'x') =
      REPO_ROOT ++ '/' :: List.replicate 1990 'x' := by
    unfold resolvePath
    rw [if_neg (by
      rw [show ("/".data).isPrefixOf (List.replicate 1990 'x') = false from rfl]
      exact Bool.false_ne_true)]
    rw [show joinPath REPO_ROOT (List.replicate 1990 'x') =
      REPO_ROOT ++ '/' :: List.replicate 1990 'x' from rfl]
    exact normPath_repoSub _ hrepmem hrep_ne hrep_ndot hrep_ndd
  have hwithin : isWithinRepo (REPO_ROOT ++ '/' :: List.replicate 1990 'x') = true := by
    unfold isWithinRepo
    rw [normPath_repoSub _ hrepmem hrep_ne hrep_ndot hrep_ndd]
    exact List.isPrefixOf_iff_prefix.mpr (List.prefix_append _ _)
  have hdisp : executeBash failOracle sampleState
      ('c' :: 'd' :: ' ' :: List.replicate 1990 'x') =
      handleCd failOracle sampleState
        ('c' :: 'd' :: ' ' :: List.replicate 1990 'x') := by
    simp only [executeBash, hstrip, hblocked, hgitnone]
    split
    · next h => exact absurd h (by decide)
    · split
      · rfl
      · next h => exact absurd (by decide) h
  have hcd : (handleCd failOracle sampleState
      ('c' :: 'd' :: ' ' :: List.replicate 1990 'x')).result.stderr =
      "bash: cd: ".data ++ List.replicate 1990 'x' ++
        ": No such file or directory".data := by
    simp only [handleCd, htarget]
    rw [show sampleState.cwd = REPO_ROOT from rfl, hresolve]
    split
    · next h => exact absurd h (by decide)
    · split
      · next h => exact absurd h (by decide)
      · split
        · next h =>
          rw [hwithin] at h
          exact absurd h (by decide)
        · split
          · rfl
          · next h =>
            exact absurd (by decide) h
  rw [hdisp, hcd, List.length_append, List.length_append, List.length_replicate]
  decide

/-- Claim C10, amended: `execute_debug` results that reach command execution
carry the command's stdout and stderr verbatim (no truncation), while
`_exec_in_container` — through which every `execute_bash` container
execution flows — truncates stdout to 10,000 and stderr to 2,000
characters.  The cd-failure message, which is constructed rather than
executed, can exceed the stderr bound (see the counterexample). -/
theorem claim_C10_amended (env : DebugEnv) (st : CState) (patch command : Str)
    (o : ExecOracle) (w c : Str)
    (hst : st.started = true)
    (hviol : (if patch ≠ [] then
        (extractFilesFromPatch patch).filter
          (fun f => st.protectedTestFiles.contains f)
      else []) = [])
    (hcommit : env.commitOk = true) (hrun : env.runOk = true)
    (hpatch : (patch ≠ [] && pyStrip patch ≠ [] && env.writeOk && !env.applyOk)
      = false) :
    (executeDebug env st patch command).stdout = (env.execOut command st.cwd).stdout ∧
    (executeDebug env st patch command).stderr = (env.execOut command st.cwd).stderr ∧
    (execInContainer o w c).stdout.length ≤ 10000 ∧
    (execInContainer o w c).stderr.length ≤ 2000 := by
  have hviol2 : ¬(patch ≠ [] ∧
      ∃ x ∈ extractFilesFromPatch patch, x ∈ st.protectedTestFiles) := by
    rintro ⟨hp, x, hx1, hx2⟩
    rw [if_pos hp] at hviol
    have hx : x ∈ (extractFilesFromPatch patch).filter
        (fun f => st.protectedTestFiles.contains f) :=
      List.mem_filter.mpr ⟨hx1, by simpa using hx2⟩
    rw [hviol] at hx
    simp at hx
  have hpatch2 : ¬(((¬patch = [] ∧ ¬pyStrip patch = []) ∧ env.writeOk = true) ∧
      env.applyOk = false) := by
    rintro ⟨⟨⟨h1, h2⟩, h3⟩, h4⟩
    simp [h1, h2, h3, h4] at hpatch
  refine ⟨?_, ?_, ?_, ?_⟩
  · simp [executeDebug, hst, hviol2, hcommit, hrun, hpatch2]
  · simp [executeDebug, hst, hviol2, hcommit, hrun, hpatch2]
  · simp only [execInContainer]
    rw [List.length_take]
    exact min_le_left _ _
  · simp only [execInContainer]
    rw [List.length_take]
    exact min_le_left _ _

/-- Witness for C10 amended: a debug execution whose raw stdout has 10,001
characters and stderr 2,001 characters is passed through unchanged, while a
bash container execution obeys the stdout bound. -/
theorem claim_C10_witness :
    (executeDebug longOutputDebugEnv sampleState [] ("pytest".data)).stdout =
      List.replicate 10001 'a' ∧
    (executeDebug longOutputDebugEnv sampleState [] ("pytest".data)).stderr =
      List.replicate 2001 'b' ∧
    (execInContainer allOkOracle REPO_ROOT ("ls".data)).stdout.length ≤ 10000 := by
  have h := claim_C10_amended longOutputDebugEnv sampleState [] ("pytest".data)
    allOkOracle REPO_ROOT ("ls".data) (by decide) (by simp) rfl rfl (by simp)
  exact ⟨h.1, h.2.1, h.2.2.1⟩

end GreenAgent
